import Mathlib

/-!
# Verification of the poisecast streaming denoise pipeline

Shallow embedding of the audio-pipeline code of the poisecast repository:

* `FloatRingBuffer`, `DenoiseProcessor` from `src/audio/worklet/denoise-processor.ts`
* `pickIoSpec`, `processFrame` from `src/audio/worker/denoise.worker.ts`
* `DenoiseEngine` wiring from `src/audio/denoise.ts`
* hostname / redirect sanitisation from `api/stream.ts`

Audio samples are modelled as rationals (`Rat`); the JS code stores
single-precision floats, but every operation the claims concern moves,
compares, averages or clamps samples, which is mirrored over `Rat`.
Machine integers are modelled as `Nat`/`Int` with explicit conversions where
the code can go negative or truncate.

A `Float32Array(capacity)` backing store is modelled as its capacity plus a
total function `Nat → Rat` (zero-initialised); out-of-range accesses follow
typed-array semantics (writes ignored, reads default to zero).
-/

namespace Poisecast

/-! ## FloatRingBuffer (denoise-processor.ts, lines 20-70) -/

/-- State of `class FloatRingBuffer`: backing store `store` of size `cap`
(allocated with `new Float32Array(capacity)`, i.e. zero-filled, fixed size),
read cursor `r`, write cursor `w`, occupancy `len`. -/
structure FloatRingBuffer where
  cap : Nat
  store : Nat → Rat
  r : Nat
  w : Nat
  len : Nat

/-- A typed-array write `buf[i] = x`: ignored when `i` is out of range. -/
def storeSet (cap : Nat) (f : Nat → Rat) (i : Nat) (x : Rat) : Nat → Rat :=
  fun j => if i < cap ∧ j = i then x else f j

/-- A typed-array read `buf[i]` (out of range yields the default 0). -/
def storeGet (cap : Nat) (f : Nat → Rat) (i : Nat) : Rat :=
  if i < cap then f i else 0

/-- `new FloatRingBuffer(capacity)`. -/
def FloatRingBuffer.ofCapacity (capacity : Nat) : FloatRingBuffer :=
  { cap := capacity, store := fun _ => 0, r := 0, w := 0, len := 0 }

/-- `get size() { return this.len }` -/
def FloatRingBuffer.size (rb : FloatRingBuffer) : Nat := rb.len

/-- `clear()` resets cursors and occupancy without touching the storage. -/
def FloatRingBuffer.clear (rb : FloatRingBuffer) : FloatRingBuffer :=
  { rb with r := 0, w := 0, len := 0 }

/-- `consume(n)`: advance the read cursor past `min n len` samples. -/
def FloatRingBuffer.consume (rb : FloatRingBuffer) (n : Nat) : FloatRingBuffer :=
  let k := min n rb.len
  { rb with r := (rb.r + k) % rb.cap, len := rb.len - k }

/-- The write loop of `push`: `for i: buf[w] = src[i]; w = (w+1) % buf.length`.
Returns the updated store and write cursor. -/
def writeLoop (cap : Nat) (f : Nat → Rat) (w : Nat) : List Rat → (Nat → Rat) × Nat
  | [] => (f, w)
  | x :: xs => writeLoop cap (storeSet cap f w x) ((w + 1) % cap) xs

/-- `push(src)` (lines 40-52).  The overflow test `src.length > buf.length - len`
and the drop count are JS number arithmetic, so they are computed over `Int`
(JS subtraction can go negative; `Nat` subtraction would truncate). -/
def FloatRingBuffer.push (rb : FloatRingBuffer) (src : List Rat) : FloatRingBuffer :=
  let free : Int := (rb.cap : Int) - (rb.len : Int)
  let rb1 := if (src.length : Int) > free then rb.consume ((src.length : Int) - free).toNat else rb
  let fw := writeLoop rb1.cap rb1.store rb1.w src
  { rb1 with store := fw.1, w := fw.2, len := rb1.len + src.length }

/-- The read loop of `read`: collects `k` samples starting at cursor `r`,
returning them and the final cursor. -/
def readLoop (cap : Nat) (f : Nat → Rat) (r : Nat) : Nat → List Rat × Nat
  | 0 => ([], r)
  | k + 1 =>
    let x := storeGet cap f r
    let p := readLoop cap f ((r + 1) % cap) k
    (x :: p.1, p.2)

/-- `read(out)` (lines 54-63) with `out.length = outLen`: returns the filled
output (real samples then a zeroed tail) and the updated buffer. -/
def FloatRingBuffer.read (rb : FloatRingBuffer) (outLen : Nat) : List Rat × FloatRingBuffer :=
  let n := min outLen rb.len
  let lr := readLoop rb.cap rb.store rb.r n
  (lr.1 ++ List.replicate (outLen - n) 0,
   { rb with r := lr.2, len := rb.len - n })

/-- The samples currently buffered, oldest first: positions `r, r+1, …` of the
backing store, as maintained by the read cursor and occupancy count. -/
def FloatRingBuffer.contents (rb : FloatRingBuffer) : List Rat :=
  (List.range rb.len).map fun i => storeGet rb.cap rb.store ((rb.r + i) % rb.cap)

/-- Unfolding of the read loop: starting from an in-range cursor it reads
exactly the `k` samples at offsets `r, r+1, …, r+k-1` (mod capacity). -/
theorem readLoop_fst (cap : Nat) (f : Nat → Rat) :
    ∀ (k r : Nat), r < cap →
      (readLoop cap f r k).1 =
        (List.range k).map fun i => storeGet cap f ((r + i) % cap) := by
  intro k
  induction k with
  | zero =>
    intro r _
    simp [readLoop]
  | succ k ih =>
    intro r hr
    have hcap : 0 < cap := Nat.lt_of_le_of_lt (Nat.zero_le r) hr
    rw [List.range_succ_eq_map]
    simp only [readLoop, List.map_cons, List.map_map,
      ih ((r + 1) % cap) (Nat.mod_lt _ hcap)]
    rw [List.cons_eq_cons]
    refine ⟨?_, ?_⟩
    · rw [Nat.add_zero, Nat.mod_eq_of_lt hr]
    · apply List.map_congr_left
      intro i _
      simp only [Function.comp_apply]
      congr 1
      rw [Nat.mod_add_mod]
      congr 1
      omega

/-! ### Claims C1, C2, C6 -/

/-- **C1** (code_bug evidence).  Occupancy is NOT bounded by capacity: a single
`push` longer than the whole capacity first consumes at most the current
occupancy (here nothing) and then unconditionally adds `src.length`, leaving
`len = 6 > 4 = capacity` on a capacity-4 buffer. -/
theorem C1_push_overrun_eval :
    ((FloatRingBuffer.ofCapacity 4).push (List.replicate 6 1)).len = 6
    ∧ ((FloatRingBuffer.ofCapacity 4).push (List.replicate 6 1)).cap = 4 := by
  constructor <;> rfl

/-- **C2** (code_bug evidence).  Pushing `capacity + 1 = 3` samples in one call
onto an empty capacity-2 buffer leaves occupancy 3 (not 2), and a subsequent
`read 2` returns `[30, 20]` — not the last two pushed samples `[20, 30]`:
drop-oldest is not exact for a push longer than the capacity. -/
theorem C2_drop_oldest_violation_eval :
    (((FloatRingBuffer.ofCapacity 2).push [10, 20, 30]).len = 3)
    ∧ ((((FloatRingBuffer.ofCapacity 2).push [10, 20, 30]).read 2).1 = [30, 20])
    ∧ ([(30 : Rat), 20] ≠ [20, 30]) := by
  refine ⟨rfl, ?_, by decide⟩
  decide

/-- **C6** (confirmed).  When the buffer holds `m ≤ n` samples, `read n`
returns those `m` buffered samples (oldest first) followed by `n − m` zeros and
leaves the buffer empty; with `m = 0` this is `n` zeros.  The cursor bound
`r < cap` holds in every state the worklet reaches (cursors are reduced mod the
capacity, 48000). -/
theorem C6_read_zero_fill (rb : FloatRingBuffer) (n : Nat)
    (hr : rb.r < rb.cap) (hlen : rb.len ≤ n) :
    (rb.read n).1 = rb.contents ++ List.replicate (n - rb.len) 0
    ∧ (rb.read n).2.len = 0 := by
  have hmin : min n rb.len = rb.len := Nat.min_eq_right hlen
  constructor
  · show (readLoop rb.cap rb.store rb.r (min n rb.len)).1
        ++ List.replicate (n - min n rb.len) 0 = _
    rw [hmin, readLoop_fst rb.cap rb.store rb.len rb.r hr]
    rfl
  · show rb.len - min n rb.len = 0
    omega

/-- Witness for C6 at a concrete input: a capacity-4 buffer holding the two
samples `[7, 8]`, read with `n = 5`. -/
theorem C6_read_zero_fill_witness :
    (((FloatRingBuffer.ofCapacity 4).push [7, 8]).read 5).1
      = ((FloatRingBuffer.ofCapacity 4).push [7, 8]).contents ++ List.replicate 3 0
    ∧ ((((FloatRingBuffer.ofCapacity 4).push [7, 8]).read 5)).2.len = 0 := by
  have h := C6_read_zero_fill ((FloatRingBuffer.ofCapacity 4).push [7, 8]) 5
    (by decide) (by decide)
  exact ⟨h.1, h.2⟩

/-! ## DenoiseProcessor (denoise-processor.ts, lines 77-195)

The worklet processor state.  `sampleRate` is the ambient
`AudioWorkletGlobalScope` global, carried as a state field. -/

structure Proc where
  enabled : Bool
  sampleRate : Nat
  frameSize : Nat
  warmupMs : Nat
  warmupSamplesRemaining : Nat
  inRing : FloatRingBuffer
  outRing : FloatRingBuffer
  nextId : Nat
  maxInFlight : Nat
  inFlight : Nat

/-- Messages the worklet receives on its port (`MainMsg`).  `setWarmupMs`
carries a JS number, modelled as an `Int` (the handler truncates with `| 0`). -/
inductive MainMsg where
  | result (id : Nat) (audio : List Rat)
  | setEnabled (enabled : Bool)
  | setWarmupMs (warmupMs : Int)

/-- JS `x | 0`: conversion to a 32-bit signed integer (for integral inputs). -/
def toInt32 (n : Int) : Int := (n + 2 ^ 31) % 2 ^ 32 - 2 ^ 31

/-- The `DenoiseProcessor` constructor (lines 90-95): clamped options, default
warmup 250 ms, two ~1 s rings, ids from 1. -/
def Proc.init (sampleRate : Nat) (frameSizeOpt maxInFlightOpt : Option Int) : Proc :=
  { enabled := false
    sampleRate := sampleRate
    frameSize := (max 32 (frameSizeOpt.getD 480)).toNat
    warmupMs := 250
    warmupSamplesRemaining := 0
    inRing := .ofCapacity 48000
    outRing := .ofCapacity 48000
    nextId := 1
    maxInFlight := (max 1 (maxInFlightOpt.getD 4)).toNat
    inFlight := 0 }

/-- `port.onmessage` handler (lines 97-119).  Enabling clears both rings,
resets the in-flight counter and arms the warmup countdown
`Math.floor((warmupMs / 1000) * sampleRate)` (over the rationals this floor is
`warmupMs * sampleRate / 1000` in `Nat`).  A result decrements the in-flight
counter (floored at 0) and pushes the processed audio into the output ring. -/
def Proc.onMessage (p : Proc) (m : MainMsg) : Proc :=
  match m with
  | .setEnabled b =>
    if b then
      { p with enabled := true
               inRing := p.inRing.clear
               outRing := p.outRing.clear
               inFlight := 0
               warmupSamplesRemaining := p.warmupMs * p.sampleRate / 1000 }
    else { p with enabled := false }
  | .setWarmupMs w => { p with warmupMs := (max 0 (toInt32 w)).toNat }
  | .result _ audio =>
    let p1 := if p.inFlight > 0 then { p with inFlight := p.inFlight - 1 } else p
    { p1 with outRing := p1.outRing.push audio }

/-- One iteration bound for the `sendFramesIfPossible` loop: each pass
increments `inFlight` under the guard `inFlight < maxInFlight`, so the loop
runs at most `maxInFlight − inFlight` times; running the loop body with that
much fuel is exactly the `while` loop. -/
def Proc.sendAux : Nat → Proc → Proc × List (Nat × List Rat)
  | 0, p => (p, [])
  | fuel + 1, p =>
    if p.enabled ∧ p.frameSize ≤ p.inRing.size ∧ p.inFlight < p.maxInFlight then
      let rd := p.inRing.read p.frameSize
      let id := p.nextId
      let p1 := { p with inRing := rd.2, nextId := p.nextId + 1, inFlight := p.inFlight + 1 }
      let nxt := Proc.sendAux fuel p1
      (nxt.1, (id, rd.1) :: nxt.2)
    else (p, [])

/-- `sendFramesIfPossible` (lines 122-131): emit full frames from the input
ring while the in-flight count is below the maximum.  Returns the new state and
the `frame` messages posted, in order. -/
def Proc.sendFramesIfPossible (p : Proc) : Proc × List (Nat × List Rat) :=
  Proc.sendAux (p.maxInFlight - p.inFlight) p

/-- The downmix section of `process` (lines 146-154): stereo input is averaged
`0.5 * (l + r)` sample-wise over the block, a lone left channel is copied,
absent input is silence. -/
def downmix (inL? inR? : Option (List Rat)) (n : Nat) : List Rat :=
  match inL?, inR? with
  | some l, some r => (List.range n).map fun i => (1 / 2 : Rat) * (l.getD i 0 + r.getD i 0)
  | some l, none => (List.range n).map fun i => l.getD i 0
  | none, _ => List.replicate n 0

/-- The output section of `process` while enabled (lines 159-179): with a
nonzero warmup countdown the block is silence and the countdown drops by
`min n remaining`; otherwise the block is read whole from the output ring when
it holds at least `n` samples, and is silence (underrun) when it does not. -/
def Proc.emitOut (p2 : Proc) (n : Nat) : Proc × List Rat :=
  if 0 < p2.warmupSamplesRemaining then
    let k := min n p2.warmupSamplesRemaining
    ({ p2 with warmupSamplesRemaining := p2.warmupSamplesRemaining - k },
     List.replicate n 0)
  else
    if n ≤ p2.outRing.size then
      let rd := p2.outRing.read n
      ({ p2 with outRing := rd.2 }, rd.1)
    else
      (p2, List.replicate n 0)

/-- `process(inputs, outputs)` (lines 133-194) for an output block of `n`
samples.  `inL?`/`inR?` are the optional input channels; the result is the new
state, the `(outL, outR)` block written (mono duplicated while enabled), and
the `frame` messages posted.  When disabled the input is passed through
(stereo preserved, mono fanned out, silence if absent). -/
def Proc.process (p : Proc) (inL? inR? : Option (List Rat)) (n : Nat) :
    Proc × (List Rat × List Rat) × List (Nat × List Rat) :=
  if p.enabled then
    let p1 := { p with inRing := p.inRing.push (downmix inL? inR? n) }
    let sf := p1.sendFramesIfPossible
    let eo := sf.1.emitOut n
    (eo.1, (eo.2, eo.2), sf.2)
  else
    match inL?, inR? with
    | some l, some r => (p, (l, r), [])
    | some l, none => (p, (l, l), [])
    | none, _ => (p, (List.replicate n 0, List.replicate n 0), [])

/-- An event hitting the worklet: a port message, or a render callback with the
given input channels and output block size. -/
inductive Ev where
  | msg (m : MainMsg)
  | render (inL? inR? : Option (List Rat)) (n : Nat)

/-- Events that occur while streaming under a fixed enable state: render
callbacks and result deliveries (no `setEnabled` / `setWarmupMs`). -/
def Ev.isCb : Ev → Bool
  | .msg (.result _ _) => true
  | .render _ _ _ => true
  | _ => false

/-- Output block sizes of the render callbacks in an event list. -/
def blockSizes : List Ev → List Nat
  | [] => []
  | .render _ _ n :: es => n :: blockSizes es
  | .msg _ :: es => blockSizes es

/-- Run a list of events; returns the final state and the concatenation of the
left output channel over all render callbacks. -/
def Proc.runOut (p : Proc) : List Ev → Proc × List Rat
  | [] => (p, [])
  | .msg m :: es => (p.onMessage m).runOut es
  | .render l r n :: es =>
    let st := p.process l r n
    let rest := st.1.runOut es
    (rest.1, st.2.1.1 ++ rest.2)

/-! ### Claim C4: bounded in-flight count -/

theorem sendAux_maxInFlight (fuel : Nat) :
    ∀ p : Proc, (Proc.sendAux fuel p).1.maxInFlight = p.maxInFlight := by
  induction fuel with
  | zero => intro p; rfl
  | succ fuel ih =>
    intro p
    rw [Proc.sendAux]
    split
    · exact ih _
    · rfl

theorem sendAux_inFlight_le (fuel : Nat) :
    ∀ p : Proc, p.inFlight ≤ p.maxInFlight →
      (Proc.sendAux fuel p).1.inFlight ≤ (Proc.sendAux fuel p).1.maxInFlight := by
  induction fuel with
  | zero => intro p h; exact h
  | succ fuel ih =>
    intro p h
    rw [Proc.sendAux]
    split
    · next hg => exact ih _ (by simpa using hg.2.2)
    · exact h

theorem sendAux_warmup_enabled (fuel : Nat) :
    ∀ p : Proc,
      (Proc.sendAux fuel p).1.warmupSamplesRemaining = p.warmupSamplesRemaining
      ∧ (Proc.sendAux fuel p).1.enabled = p.enabled := by
  induction fuel with
  | zero => intro p; exact ⟨rfl, rfl⟩
  | succ fuel ih =>
    intro p
    rw [Proc.sendAux]
    split
    · exact ih _
    · exact ⟨rfl, rfl⟩

theorem sendFrames_fields (p : Proc) :
    p.sendFramesIfPossible.1.warmupSamplesRemaining = p.warmupSamplesRemaining
    ∧ p.sendFramesIfPossible.1.enabled = p.enabled
    ∧ p.sendFramesIfPossible.1.maxInFlight = p.maxInFlight :=
  ⟨(sendAux_warmup_enabled _ _).1, (sendAux_warmup_enabled _ _).2,
    sendAux_maxInFlight _ _⟩

theorem sendFrames_inFlight_le (p : Proc) (h : p.inFlight ≤ p.maxInFlight) :
    p.sendFramesIfPossible.1.inFlight ≤ p.sendFramesIfPossible.1.maxInFlight :=
  sendAux_inFlight_le _ _ h

theorem emitOut_counters (p2 : Proc) (n : Nat) :
    (p2.emitOut n).1.inFlight = p2.inFlight
    ∧ (p2.emitOut n).1.maxInFlight = p2.maxInFlight
    ∧ (p2.emitOut n).1.enabled = p2.enabled
    ∧ (p2.emitOut n).1.sampleRate = p2.sampleRate := by
  unfold Proc.emitOut
  split
  · exact ⟨rfl, rfl, rfl, rfl⟩
  · split
    · exact ⟨rfl, rfl, rfl, rfl⟩
    · exact ⟨rfl, rfl, rfl, rfl⟩

theorem onMessage_inFlight_le (p : Proc) (m : MainMsg) (h : p.inFlight ≤ p.maxInFlight) :
    (p.onMessage m).inFlight ≤ (p.onMessage m).maxInFlight := by
  cases m with
  | setEnabled b =>
    cases b with
    | true => exact Nat.zero_le _
    | false => exact h
  | setWarmupMs w => exact h
  | result i a =>
    show (if p.inFlight > 0 then { p with inFlight := p.inFlight - 1 } else p).inFlight
      ≤ (if p.inFlight > 0 then { p with inFlight := p.inFlight - 1 } else p).maxInFlight
    split
    · show p.inFlight - 1 ≤ p.maxInFlight
      omega
    · exact h

theorem process_inFlight_le (p : Proc) (l r : Option (List Rat)) (n : Nat)
    (h : p.inFlight ≤ p.maxInFlight) :
    (p.process l r n).1.inFlight ≤ (p.process l r n).1.maxInFlight := by
  unfold Proc.process
  split
  · dsimp only
    rw [(emitOut_counters _ _).1, (emitOut_counters _ _).2.1]
    exact sendFrames_inFlight_le _ h
  · rcases l with _ | l <;> rcases r with _ | r <;> exact h

/-- **C4** (confirmed).  Over every sequence of render callbacks, result
messages and `setEnabled`/`setWarmupMs` messages, the in-flight counter stays
at or below the configured maximum: frames are emitted only under the guard
`inFlight < maxInFlight`, results floor the decrement at zero, and re-enabling
resets the counter to zero. -/
theorem C4_inFlight_never_exceeds_max (evs : List Ev) :
    ∀ p : Proc, p.inFlight ≤ p.maxInFlight →
      (p.runOut evs).1.inFlight ≤ (p.runOut evs).1.maxInFlight := by
  induction evs with
  | nil => intro p h; exact h
  | cons e es ih =>
    intro p h
    cases e with
    | msg m => exact ih _ (onMessage_inFlight_le p m h)
    | render l r n => exact ih _ (process_inFlight_le p l r n h)

/-- Witness for C4: a freshly constructed processor (in-flight 0, max 4) run
through enable, a stereo render callback and a result message. -/
theorem C4_inFlight_never_exceeds_max_witness :
    (((Proc.init 48000 none none).runOut
        [.msg (.setEnabled true),
         .render (some (List.replicate 128 1)) (some (List.replicate 128 1)) 128,
         .msg (.result 1 (List.replicate 480 0))]).1).inFlight ≤
      (((Proc.init 48000 none none).runOut
        [.msg (.setEnabled true),
         .render (some (List.replicate 128 1)) (some (List.replicate 128 1)) 128,
         .msg (.result 1 (List.replicate 480 0))]).1).maxInFlight :=
  C4_inFlight_never_exceeds_max _ (Proc.init 48000 none none) (by decide)

/-! ### Claim C3: warmup silence -/

/-- Number of output samples forced silent by the warmup countdown `W` across
render blocks of the given sizes: every block that starts with a nonzero
countdown is silenced whole, so the silent span is the smallest cumulative
block total that exhausts `W`. -/
def silentSpan : Nat → List Nat → Nat
  | _, [] => 0
  | w, n :: ns => if w = 0 then 0 else n + silentSpan (w - n) ns

theorem onMessage_result_fields (p : Proc) (i : Nat) (a : List Rat) :
    (p.onMessage (.result i a)).warmupSamplesRemaining = p.warmupSamplesRemaining
    ∧ (p.onMessage (.result i a)).enabled = p.enabled := by
  simp only [Proc.onMessage]
  split <;> exact ⟨rfl, rfl⟩

theorem min_sum_le_silentSpan : ∀ (ns : List Nat) (w : Nat), min w ns.sum ≤ silentSpan w ns := by
  intro ns
  induction ns with
  | nil => intro w; simp [silentSpan]
  | cons n ns ih =>
    intro w
    by_cases hw : w = 0
    · simp [hw, silentSpan]
    · have := ih (w - n)
      simp only [silentSpan, hw, if_false, List.sum_cons]
      omega

theorem silentSpan_eq_of_aligned :
    ∀ (ns : List Nat) (w k : Nat), (ns.take k).sum = w → silentSpan w ns = w := by
  intro ns
  induction ns with
  | nil =>
    intro w k h
    simp only [List.take_nil, List.sum_nil] at h
    simp [silentSpan, ← h]
  | cons n ns ih =>
    intro w k h
    cases k with
    | zero =>
      simp only [List.take_zero, List.sum_nil] at h
      simp [silentSpan, ← h]
    | succ k =>
      simp only [List.take_succ_cons, List.sum_cons] at h
      by_cases hw : w = 0
      · simp [silentSpan, hw]
      · have hn : n ≤ w := by omega
        have h' : (ns.take k).sum = w - n := by omega
        simp only [silentSpan, hw, if_false, ih (w - n) k h']
        omega

/-- `emitOut` during warmup: the block is all-silent and the countdown drops
by the full block size (clamped at zero by the `min`). -/
theorem emitOut_warmup_pos (p2 : Proc) (n : Nat) (hwp : 0 < p2.warmupSamplesRemaining) :
    (p2.emitOut n).2 = List.replicate n 0
    ∧ (p2.emitOut n).1.warmupSamplesRemaining = p2.warmupSamplesRemaining - n := by
  unfold Proc.emitOut
  rw [if_pos hwp]
  refine ⟨rfl, ?_⟩
  show p2.warmupSamplesRemaining - min n p2.warmupSamplesRemaining
    = p2.warmupSamplesRemaining - n
  omega

/-- `emitOut` after warmup never re-arms the countdown. -/
theorem emitOut_warmup_zero (p2 : Proc) (n : Nat) (hwz : p2.warmupSamplesRemaining = 0) :
    (p2.emitOut n).1.warmupSamplesRemaining = 0 := by
  unfold Proc.emitOut
  rw [if_neg (by omega)]
  split
  · exact hwz
  · exact hwz

/-- A render callback that begins with a nonzero warmup countdown emits a
fully silent block and decrements the countdown by the block size (clamped). -/
theorem process_warmup_pos (p : Proc) (l r : Option (List Rat)) (n : Nat)
    (hen : p.enabled = true) (hwp : 0 < p.warmupSamplesRemaining) :
    (p.process l r n).2.1.1 = List.replicate n 0
    ∧ (p.process l r n).1.warmupSamplesRemaining = p.warmupSamplesRemaining - n
    ∧ (p.process l r n).1.enabled = true := by
  unfold Proc.process
  rw [if_pos hen]
  dsimp only
  have hw1 : 0 < ({ p with inRing := p.inRing.push (downmix l r n) }
      : Proc).sendFramesIfPossible.1.warmupSamplesRemaining := by
    rw [(sendFrames_fields _).1]
    exact hwp
  obtain ⟨ho, hwm⟩ := emitOut_warmup_pos _ n hw1
  refine ⟨ho, ?_, ?_⟩
  · rw [hwm, (sendFrames_fields _).1]
  · rw [(emitOut_counters _ _).2.2.1, (sendFrames_fields _).2.1]
    exact hen

/-- The inductive core of C3: with the processor enabled and only render /
result events arriving, the first `silentSpan W ns` concatenated output samples
are zero, where `W` is the armed countdown and `ns` the render block sizes. -/
theorem runOut_warmup_silent_span :
    ∀ (evs : List Ev) (p : Proc), p.enabled = true → (∀ e ∈ evs, e.isCb = true) →
      (p.runOut evs).2.take (silentSpan p.warmupSamplesRemaining (blockSizes evs))
        = List.replicate (silentSpan p.warmupSamplesRemaining (blockSizes evs)) 0 := by
  intro evs
  induction evs with
  | nil => intro p _ _; simp [Proc.runOut, silentSpan]
  | cons e es ih =>
    intro p hen hcb
    have hcb' : ∀ e ∈ es, e.isCb = true := fun e he => hcb e (List.mem_cons_of_mem _ he)
    cases e with
    | msg m =>
      cases m with
      | setEnabled b => exact absurd (hcb _ (List.mem_cons_self _ _)) (by simp [Ev.isCb])
      | setWarmupMs w => exact absurd (hcb _ (List.mem_cons_self _ _)) (by simp [Ev.isCb])
      | result i a =>
        have hf := onMessage_result_fields p i a
        have := ih (p.onMessage (.result i a)) (hf.2.trans hen) hcb'
        simpa [Proc.runOut, blockSizes, hf.1] using this
    | render l r n =>
      by_cases hwp : 0 < p.warmupSamplesRemaining
      · obtain ⟨hout, hwarm, hen'⟩ := process_warmup_pos p l r n hen hwp
        have hspan : silentSpan p.warmupSamplesRemaining (n :: blockSizes es)
            = n + silentSpan (p.warmupSamplesRemaining - n) (blockSizes es) := by
          simp [silentSpan, Nat.pos_iff_ne_zero.mp hwp]
        have ihs := ih ((p.process l r n).1) hen' hcb'
        rw [hwarm] at ihs
        simp only [Proc.runOut, blockSizes, hspan, hout]
        rw [show n + silentSpan (p.warmupSamplesRemaining - n) (blockSizes es)
              = (List.replicate n (0 : Rat)).length
                + silentSpan (p.warmupSamplesRemaining - n) (blockSizes es) by
            simp,
          List.take_append, List.length_replicate, List.replicate_add]
        rw [ihs]
      · have hwz : p.warmupSamplesRemaining = 0 := by omega
        simp [blockSizes, silentSpan, hwz]

/-- **C3** (corrected).  After `setEnabled(true)` arms the countdown
`W = ⌊warmupMs/1000 · sampleRate⌋`, every render block that still sees a
nonzero countdown is emitted entirely silent, so the silent prefix of the
output is `silentSpan W ns` — the smallest cumulative block total reaching `W`
— for block sizes `ns`: at least `min W (sum ns)` samples, and exactly `W`
only when `W` falls on a block boundary.  (The claim's "exactly
`floor(w/1000·r)` silent samples for every block-size sequence" fails when `W`
is not block-aligned, see the counterexample.) -/
theorem C3_warmup_silence (p : Proc) (evs : List Ev)
    (hen : p.enabled = true) (hcb : ∀ e ∈ evs, e.isCb = true) :
    ((p.runOut evs).2.take (silentSpan p.warmupSamplesRemaining (blockSizes evs))
        = List.replicate (silentSpan p.warmupSamplesRemaining (blockSizes evs)) 0)
    ∧ min p.warmupSamplesRemaining (blockSizes evs).sum
        ≤ silentSpan p.warmupSamplesRemaining (blockSizes evs)
    ∧ ∀ k, ((blockSizes evs).take k).sum = p.warmupSamplesRemaining →
        silentSpan p.warmupSamplesRemaining (blockSizes evs) = p.warmupSamplesRemaining :=
  ⟨runOut_warmup_silent_span evs p hen hcb,
   min_sum_le_silentSpan (blockSizes evs) p.warmupSamplesRemaining,
   fun k h => silentSpan_eq_of_aligned (blockSizes evs) p.warmupSamplesRemaining k h⟩

/-- Witness for C3: a freshly enabled processor (default 250 ms warmup at
48 kHz, countdown 12000) run through one 128-sample render callback. -/
theorem C3_warmup_silence_witness :
    ((((Proc.init 48000 none none).onMessage (.setEnabled true)).runOut
          [.render (some (List.replicate 128 1)) none 128]).2.take
        (silentSpan
          ((Proc.init 48000 none none).onMessage (.setEnabled true)).warmupSamplesRemaining
          (blockSizes [.render (some (List.replicate 128 1)) none 128]))
      = List.replicate
          (silentSpan
            ((Proc.init 48000 none none).onMessage (.setEnabled true)).warmupSamplesRemaining
            (blockSizes [.render (some (List.replicate 128 1)) none 128])) 0)
    ∧ min ((Proc.init 48000 none none).onMessage (.setEnabled true)).warmupSamplesRemaining
          (blockSizes [.render (some (List.replicate 128 1)) none 128]).sum
        ≤ silentSpan
            ((Proc.init 48000 none none).onMessage (.setEnabled true)).warmupSamplesRemaining
            (blockSizes [.render (some (List.replicate 128 1)) none 128])
    ∧ ∀ k, ((blockSizes [.render (some (List.replicate 128 1)) none 128]).take k).sum
          = ((Proc.init 48000 none none).onMessage (.setEnabled true)).warmupSamplesRemaining →
        silentSpan
            ((Proc.init 48000 none none).onMessage (.setEnabled true)).warmupSamplesRemaining
            (blockSizes [.render (some (List.replicate 128 1)) none 128])
          = ((Proc.init 48000 none none).onMessage (.setEnabled true)).warmupSamplesRemaining :=
  C3_warmup_silence ((Proc.init 48000 none none).onMessage (.setEnabled true))
    [.render (some (List.replicate 128 1)) none 128] rfl (by decide)

/-- A processor armed with a 48-sample warmup (48 ms at 1 kHz), frame size 32,
max in-flight 4. -/
def c3proc : Proc :=
  ((Proc.init 1000 (some 32) (some 4)).onMessage (.setWarmupMs 48)).onMessage
    (.setEnabled true)

/-- Two 128-sample render callbacks around prompt (passthrough-style) result
deliveries for the four frames emitted by the first callback. -/
def c3evs : List Ev :=
  [.render (some (List.replicate 128 1)) none 128,
   .msg (.result 1 (List.replicate 32 1)), .msg (.result 2 (List.replicate 32 1)),
   .msg (.result 3 (List.replicate 32 1)), .msg (.result 4 (List.replicate 32 1)),
   .render (some (List.replicate 128 1)) none 128]

set_option maxRecDepth 100000 in
/-- **C3 counterexample.**  With `warmupMs = 48` at `sampleRate = 1000` the
claim demands exactly `⌊48/1000 · 1000⌋ = 48` silent samples before the first
processed sample.  The armed countdown is indeed 48, and the engine responds
promptly (all four frames of the first block come back before the second
block), yet the output starts with 128 silent samples — the whole first render
block — because a block that begins mid-warmup is silenced whole. -/
theorem C3_counterexample :
    c3proc.warmupSamplesRemaining = 48
    ∧ ((c3proc.runOut c3evs).2.takeWhile (fun x => x == 0)).length = 128
    ∧ (48 : Nat) ≠ 128 :=
  ⟨rfl, by decide, by decide⟩

/-! ## Inference worker (denoise.worker.ts)

### I/O negotiation: `pickIoSpec` (lines 42-114) -/

/-- One entry of an ONNX tensor `dimensions` array: a number, a symbolic
string, or `null`. -/
inductive Dim where
  | num (n : Int)
  | str (s : String)
  | null
deriving Repr, DecidableEq

/-- `InputMeta` (line 12): optional dimension list and optional type tag. -/
structure InputMeta where
  dimensions : Option (List Dim)
  type : Option String
deriving Repr, DecidableEq

/-- The negotiated `IoSpec` (lines 14-22). -/
structure IoSpec where
  audioInName : String
  stateInName : Option String
  attenInName : Option String
  audioOutName : String
  stateOutName : Option String
  frameSize : Nat
  stateSize : Option Nat
deriving Repr, DecidableEq

/-- `pat.isPrefixOf`-based substring search on character lists, modelling JS
`String.prototype.includes`. -/
def charsContain (pat : List Char) : List Char → Bool
  | [] => pat.isEmpty
  | c :: cs => List.isPrefixOf pat (c :: cs) || charsContain pat cs

/-- `meta?.type?.includes('float') || meta?.type === 'tensor(float)'`. -/
def isFloatMeta (m : InputMeta) : Bool :=
  (match m.type with
   | some t => charsContain "float".toList t.toList
   | none => false)
  || m.type == some "tensor(float)"

/-- `meta.dimensions ?? []`. -/
def dimsOf (m : InputMeta) : List Dim := m.dimensions.getD []

/-- Audio-in predicate: a single numeric dimension strictly between 32 and
4096. -/
def audioDimPred (m : InputMeta) : Bool :=
  match dimsOf m with
  | [Dim.num d] => decide (32 < d) && decide (d < 4096)
  | _ => false

/-- State-in predicate: a single numeric dimension of at least 4096. -/
def stateDimPred (m : InputMeta) : Bool :=
  match dimsOf m with
  | [Dim.num d] => decide (4096 ≤ d)
  | _ => false

/-- Attenuation-in predicate: no dimensions, or a single dimension that is the
number 1, `null`, or the string `'1'`. -/
def attenDimPred (m : InputMeta) : Bool :=
  match dimsOf m with
  | [] => true
  | [d] => d == Dim.num 1 || d == Dim.null || d == Dim.str "1"
  | _ => false

/-- `dimensions?.[0]` when it is a number. -/
def firstNumDim (m : InputMeta) : Option Int :=
  match (dimsOf m).head? with
  | some (Dim.num d) => some d
  | _ => none

/-- Output predicate `d.length === 1 && typeof d[0] === 'number' && d[0] === sz`. -/
def outDimEq (sz : Int) (m : InputMeta) : Bool :=
  match dimsOf m with
  | [Dim.num d] => d == sz
  | _ => false

/-- State-out predicate: as `outDimEq` but additionally requiring the
negotiated state size to be present and truthy (`stateSize && d[0] === stateSize`;
a JS `0` is falsy). -/
def stateOutPred (stateSize : Option Nat) (m : InputMeta) : Bool :=
  match stateSize with
  | some s => decide (s ≠ 0) && outDimEq (s : Int) m
  | none => false

/-- `pickIoSpec` (lines 42-114) over the session's input/output name→metadata
records, modelled as association lists (names with their metadata).  The
fallback branch fires when either list is empty (in the source also when the
metadata records are absent — absence is not representable here since each
name carries its metadata).  ONNX dimension values are nonnegative, so the
`Int → Nat` conversions for the negotiated sizes are lossless. -/
def pickIoSpec (inputs outputs : List (String × InputMeta)) : IoSpec :=
  if inputs.isEmpty || outputs.isEmpty then
    { audioInName := "input_frame"
      stateInName := some "states"
      attenInName := some "atten_lim_db"
      audioOutName := (outputs.map Prod.fst).headD "enhanced_audio_frame"
      stateOutName := (outputs.map Prod.fst).get? 1
      frameSize := 480
      stateSize := some 45304 }
  else
    let candidates := inputs.filter fun x => isFloatMeta x.2
    let audioIn := candidates.find? fun x => audioDimPred x.2
    let stateIn := candidates.find? fun x => stateDimPred x.2
    let attenIn := candidates.find? fun x => attenDimPred x.2
    let frameSize : Nat :=
      match audioIn.bind fun x => firstNumDim x.2 with
      | some d => d.toNat
      | none => 480
    let stateSize : Option Nat :=
      (stateIn.bind fun x => firstNumDim x.2).map Int.toNat
    let outCandidates := outputs.filter fun x => isFloatMeta x.2
    let audioOut :=
      (outCandidates.find? fun x => outDimEq (frameSize : Int) x.2).orElse
        fun _ => outCandidates.head?
    let stateOut :=
      (outCandidates.find? fun x => stateOutPred stateSize x.2).orElse
        fun _ => outCandidates.get? 1
    { audioInName := (audioIn.map Prod.fst).getD ((inputs.map Prod.fst).headD "")
      stateInName := stateIn.map Prod.fst
      attenInName := attenIn.map Prod.fst
      audioOutName := (audioOut.map Prod.fst).getD ((outputs.map Prod.fst).headD "")
      stateOutName := stateOut.map Prod.fst
      frameSize := frameSize
      stateSize := stateSize }

/-- `find?` returns the unique element satisfying the predicate. -/
theorem find_eq_of_unique {α : Type} (l : List α) (p : α → Bool) (x : α)
    (hx : x ∈ l) (hpx : p x = true) (huniq : ∀ y ∈ l, p y = true → y = x) :
    l.find? p = some x := by
  induction l with
  | nil => cases hx
  | cons a l ih =>
    by_cases hpa : p a = true
    · have : a = x := huniq a (List.mem_cons_self _ _) hpa
      subst this
      simp [List.find?, hpa]
    · have hax : x ≠ a := fun h => hpa (h ▸ hpx)
      have hx' : x ∈ l := by
        rcases List.mem_cons.mp hx with h | h
        · exact absurd h hax
        · exact h
      rw [List.find?]
      rw [Bool.not_eq_true] at hpa
      rw [hpa]
      exact ih hx' fun y hy hpy => huniq y (List.mem_cons_of_mem _ hy) hpy

/-- A 1-D float tensor description with the given dimension. -/
def meta1D (d : Int) : InputMeta :=
  { dimensions := some [Dim.num d], type := some "tensor(float)" }

/-- **C7** (confirmed).  For a model description with exactly one 1-D
480-length float input, one 1-D 45304-length float input and one scalar (0-D
or length-1) float input — in any order — and outputs with one 480-length and
one 45304-length float tensor, negotiation assigns the roles exactly as the
claim states, with `frameSize = 480` and `stateSize = 45304`. -/
theorem C7_io_negotiation (na ns nc noa nos : String) (dsc : List Dim)
    (hdsc : dsc = [] ∨ dsc = [Dim.num 1])
    (inputs outputs : List (String × InputMeta))
    (hin : inputs.Perm
      [(na, meta1D 480), (ns, meta1D 45304),
       (nc, { dimensions := some dsc, type := some "tensor(float)" })])
    (hout : outputs.Perm [(noa, meta1D 480), (nos, meta1D 45304)]) :
    pickIoSpec inputs outputs =
      { audioInName := na, stateInName := some ns, attenInName := some nc,
        audioOutName := noa, stateOutName := some nos,
        frameSize := 480, stateSize := some 45304 } := by
  have hcmeta : isFloatMeta { dimensions := some dsc, type := some "tensor(float)" } = true := by
    simp [isFloatMeta]
  have hcatt : attenDimPred { dimensions := some dsc, type := some "tensor(float)" } = true := by
    rcases hdsc with h | h <;> subst h <;> decide
  have hne : inputs.isEmpty = false := by
    have := hin.length_eq
    cases inputs with
    | nil => simp at this
    | cons a l => rfl
  have hone : outputs.isEmpty = false := by
    have := hout.length_eq
    cases outputs with
    | nil => simp at this
    | cons a l => rfl
  have hinmem : ∀ y, y ∈ inputs ↔
      (y = (na, meta1D 480) ∨ y = (ns, meta1D 45304) ∨
       y = (nc, { dimensions := some dsc, type := some "tensor(float)" })) := by
    intro y
    rw [hin.mem_iff]
    simp
  have houtmem : ∀ y, y ∈ outputs ↔
      (y = (noa, meta1D 480) ∨ y = (nos, meta1D 45304)) := by
    intro y
    rw [hout.mem_iff]
    simp
  have hA : (inputs.filter fun x => isFloatMeta x.2).find? (fun x => audioDimPred x.2)
      = some (na, meta1D 480) := by
    apply find_eq_of_unique
    · refine List.mem_filter.mpr ⟨(hinmem _).mpr (Or.inl rfl), ?_⟩
      show isFloatMeta (meta1D 480) = true
      decide
    · show audioDimPred (meta1D 480) = true
      decide
    · intro y hy hpy
      rcases (hinmem y).mp (List.mem_filter.mp hy).1 with h | h | h <;> subst h
      · rfl
      · exact absurd hpy (show ¬audioDimPred (meta1D 45304) = true by decide)
      · rcases hdsc with h | h
        · subst h
          exact absurd hpy (show
            ¬audioDimPred { dimensions := some ([] : List Dim), type := some "tensor(float)" }
              = true by decide)
        · subst h
          exact absurd hpy (show
            ¬audioDimPred { dimensions := some [Dim.num 1], type := some "tensor(float)" }
              = true by decide)
  have hS : (inputs.filter fun x => isFloatMeta x.2).find? (fun x => stateDimPred x.2)
      = some (ns, meta1D 45304) := by
    apply find_eq_of_unique
    · refine List.mem_filter.mpr ⟨(hinmem _).mpr (Or.inr (Or.inl rfl)), ?_⟩
      show isFloatMeta (meta1D 45304) = true
      decide
    · show stateDimPred (meta1D 45304) = true
      decide
    · intro y hy hpy
      rcases (hinmem y).mp (List.mem_filter.mp hy).1 with h | h | h <;> subst h
      · exact absurd hpy (show ¬stateDimPred (meta1D 480) = true by decide)
      · rfl
      · rcases hdsc with h | h
        · subst h
          exact absurd hpy (show
            ¬stateDimPred { dimensions := some ([] : List Dim), type := some "tensor(float)" }
              = true by decide)
        · subst h
          exact absurd hpy (show
            ¬stateDimPred { dimensions := some [Dim.num 1], type := some "tensor(float)" }
              = true by decide)
  have hT : (inputs.filter fun x => isFloatMeta x.2).find? (fun x => attenDimPred x.2)
      = some (nc, { dimensions := some dsc, type := some "tensor(float)" }) := by
    apply find_eq_of_unique
    · exact List.mem_filter.mpr ⟨(hinmem _).mpr (Or.inr (Or.inr rfl)), hcmeta⟩
    · exact hcatt
    · intro y hy hpy
      rcases (hinmem y).mp (List.mem_filter.mp hy).1 with h | h | h <;> subst h
      · exact absurd hpy (show ¬attenDimPred (meta1D 480) = true by decide)
      · exact absurd hpy (show ¬attenDimPred (meta1D 45304) = true by decide)
      · rfl
  have hOA : (outputs.filter fun x => isFloatMeta x.2).find?
        (fun x => outDimEq (480 : Int) x.2)
      = some (noa, meta1D 480) := by
    apply find_eq_of_unique
    · refine List.mem_filter.mpr ⟨(houtmem _).mpr (Or.inl rfl), ?_⟩
      show isFloatMeta (meta1D 480) = true
      decide
    · show outDimEq (480 : Int) (meta1D 480) = true
      decide
    · intro y hy hpy
      rcases (houtmem y).mp (List.mem_filter.mp hy).1 with h | h <;> subst h
      · rfl
      · exact absurd hpy (show ¬outDimEq (480 : Int) (meta1D 45304) = true by decide)
  have hOS : (outputs.filter fun x => isFloatMeta x.2).find?
        (fun x => stateOutPred (some 45304) x.2)
      = some (nos, meta1D 45304) := by
    apply find_eq_of_unique
    · refine List.mem_filter.mpr ⟨(houtmem _).mpr (Or.inr rfl), ?_⟩
      show isFloatMeta (meta1D 45304) = true
      decide
    · show stateOutPred (some 45304) (meta1D 45304) = true
      decide
    · intro y hy hpy
      rcases (houtmem y).mp (List.mem_filter.mp hy).1 with h | h <;> subst h
      · exact absurd hpy (show ¬stateOutPred (some 45304) (meta1D 480) = true by decide)
      · rfl
  simp only [pickIoSpec, hne, hone, Bool.or_self, Bool.false_eq_true, if_false,
    hA, hS, hT]
  dsimp only [firstNumDim, dimsOf, meta1D, Option.getD_some, Option.some_bind,
    Option.bind_some, Option.map_some', List.head?]
  rw [show ((Int.toNat 480 : Nat) : Int) = (480 : Int) from rfl,
    show (Int.toNat 480 : Nat) = (480 : Nat) from rfl,
    show (Int.toNat 45304 : Nat) = (45304 : Nat) from rfl]
  rw [hOA, hOS]
  rfl

/-- Witness for C7: the shipped model's concrete description, in the natural
order, negotiated to the expected spec. -/
theorem C7_io_negotiation_witness :
    pickIoSpec
      [("input_frame", meta1D 480), ("states", meta1D 45304),
       ("atten_lim_db", { dimensions := some [Dim.num 1], type := some "tensor(float)" })]
      [("enhanced_audio_frame", meta1D 480), ("new_states", meta1D 45304)]
    = { audioInName := "input_frame", stateInName := some "states",
        attenInName := some "atten_lim_db", audioOutName := "enhanced_audio_frame",
        stateOutName := some "new_states", frameSize := 480, stateSize := some 45304 } :=
  C7_io_negotiation "input_frame" "states" "atten_lim_db" "enhanced_audio_frame"
    "new_states" [Dim.num 1] (Or.inr rfl) _ _ (List.Perm.refl _) (List.Perm.refl _)

/-! ### Frame processing: `processFrame` (denoise.worker.ts, lines 175-231) -/

/-- Replies the worker posts back (`WorkerReply`). -/
inductive WorkerReply where
  | ready (backend : String) (frameSize : Nat) (hasState : Bool)
  | result (id : Nat) (audio : List Rat)
  | error (message : String)
deriving Repr, DecidableEq

/-- The feeds record built for `session.run` (lines 186-198), as an
association list: the audio frame, the state vector when negotiated, and the
`atten_lim_db` scalar `[-60.0]` when negotiated. -/
def mkFeeds (spec : IoSpec) (state : Option (List Rat)) (audio : List Rat) :
    List (String × List Rat) :=
  [(spec.audioInName, audio)]
  ++ (match spec.stateInName, state, spec.stateSize with
      | some sn, some st, some _ => [(sn, st)]
      | _, _, _ => [])
  ++ (match spec.attenInName with
      | some an => [(an, [(-60 : Rat)])]
      | none => [])

/-- Resolution of the audio output tensor (line 202):
`outputs[audioOutName] ?? outputs[outputNames[0]]`. -/
def resolveAudioOut (spec : IoSpec) (outputNames : List String)
    (outputs : List (String × List Rat)) : Option (List Rat) :=
  match outputs.lookup spec.audioOutName with
  | some o => some o
  | none =>
    match outputNames.head? with
    | some n0 => outputs.lookup n0
    | none => none

/-- The clamp of line 222: `v > 1 ? 1 : v < -1 ? -1 : v`. -/
def clamp1 (v : Rat) : Rat :=
  if v > 1 then 1 else if v < -1 then -1 else v

/-- The state update of lines 210-216: adopt `outputs[stateOutName]` only when
present and of the same length as the current state vector. -/
def nextStateOf (spec : IoSpec) (state : Option (List Rat))
    (outputs : List (String × List Rat)) : Option (List Rat) :=
  match spec.stateOutName, state with
  | some son, some st =>
    match outputs.lookup son with
    | some ns => if ns.length = st.length then some ns else some st
    | none => some st
  | _, _ => state

/-- `processFrame` (lines 175-231), parameterised over the engine:
`run feeds` models `session.run` (`Except.error` = a thrown exception).
Returns the posted replies, in order, and the worker's state vector after the
call.  The guard `if (!session || !ioSpec) return` is outside this function
(the caller model).  `out[i] ?? 0` is `List.getD`. -/
def processFrame (spec : IoSpec) (outputNames : List String)
    (run : List (String × List Rat) → Except String (List (String × List Rat)))
    (state : Option (List Rat)) (id : Nat) (audio : List Rat) :
    List WorkerReply × Option (List Rat) :=
  if audio.length ≠ spec.frameSize then
    ([.result id audio], state)
  else
    match run (mkFeeds spec state audio) with
    | .error m => ([.error m, .result id audio], state)
    | .ok outputs =>
      match resolveAudioOut spec outputNames outputs with
      | none => ([.result id audio], state)
      | some out =>
        ([.result id ((List.range spec.frameSize).map fun i => clamp1 (out.getD i 0))],
         nextStateOf spec state outputs)

/-- Bounds of the clamp. -/
theorem clamp1_bounds (v : Rat) : -1 ≤ clamp1 v ∧ clamp1 v ≤ 1 := by
  unfold clamp1
  split_ifs with h1 h2 <;> constructor <;> linarith

/-- **C5** (corrected, the part that holds).  Passthrough of the original
input samples occurs exactly in these cases: (a) the submitted frame's length
differs from the negotiated frame size; (b) the engine throws (an `error`
reply is posted, then the passthrough `result`); (c) the response carries no
audio output tensor.  In each case the state vector is left untouched. -/
theorem C5_passthrough_policy :
    (∀ (spec : IoSpec) (onames : List String)
        (run : List (String × List Rat) → Except String (List (String × List Rat)))
        (st : Option (List Rat)) (id : Nat) (audio : List Rat),
      audio.length ≠ spec.frameSize →
        processFrame spec onames run st id audio = ([.result id audio], st))
    ∧ (∀ (spec : IoSpec) (onames : List String)
        (run : List (String × List Rat) → Except String (List (String × List Rat)))
        (st : Option (List Rat)) (id : Nat) (audio : List Rat) (m : String),
      audio.length = spec.frameSize →
      run (mkFeeds spec st audio) = .error m →
        processFrame spec onames run st id audio = ([.error m, .result id audio], st))
    ∧ (∀ (spec : IoSpec) (onames : List String)
        (run : List (String × List Rat) → Except String (List (String × List Rat)))
        (st : Option (List Rat)) (id : Nat) (audio : List Rat)
        (outs : List (String × List Rat)),
      audio.length = spec.frameSize →
      run (mkFeeds spec st audio) = .ok outs →
      resolveAudioOut spec onames outs = none →
        processFrame spec onames run st id audio = ([.result id audio], st)) := by
  refine ⟨?_, ?_, ?_⟩
  · intro spec onames run st id audio h
    simp [processFrame, h]
  · intro spec onames run st id audio m h hrun
    simp [processFrame, h, hrun]
  · intro spec onames run st id audio outs h hrun hout
    simp [processFrame, h, hrun, hout]

/-- The negotiated spec of a tiny two-sample synthetic model, used for the
concrete worker-side runs. -/
def c5spec : IoSpec :=
  { audioInName := "in", stateInName := none, attenInName := none,
    audioOutName := "out", stateOutName := none, frameSize := 2, stateSize := none }

/-- Witness for C5 at concrete inputs: (a) a 1-sample frame against frame size
2; (b) an engine that throws; (c) a response with no recognisable audio
output. -/
theorem C5_passthrough_policy_witness :
    processFrame c5spec ["out"] (fun _ => .ok [("out", [])]) none 3 [1]
      = ([.result 3 [1]], none)
    ∧ processFrame c5spec ["out"] (fun _ => .error "engine failed") none 4 [1, 1]
      = ([.error "engine failed", .result 4 [1, 1]], none)
    ∧ processFrame c5spec [] (fun _ => .ok []) none 5 [1, 1]
      = ([.result 5 [1, 1]], none) :=
  ⟨C5_passthrough_policy.1 c5spec ["out"] (fun _ => .ok [("out", [])]) none 3 [1]
      (by decide),
   C5_passthrough_policy.2.1 c5spec ["out"] (fun _ => .error "engine failed") none 4
      [1, 1] "engine failed" (by decide) rfl,
   C5_passthrough_policy.2.2 c5spec [] (fun _ => .ok []) none 5 [1, 1] []
      (by decide) rfl rfl⟩

/-- **C5 counterexample.**  A successful engine response whose audio tensor
has the wrong sample count (here: empty, against frame size 2) is NOT treated
as passthrough: the bridge posts `[0, 0]` (the clamp loop's `out[i] ?? 0`
zero-fill), not the original input `[1, 1]`.  An all-zero frame is exactly the
silence the claim says is avoided. -/
theorem C5_counterexample :
    (processFrame c5spec ["out"] (fun _ => .ok [("out", [])]) none 7 [1, 1]).1
      = [.result 7 [0, 0]]
    ∧ ([(0 : Rat), 0] ≠ [1, 1]) :=
  ⟨by decide, by decide⟩

/-- **C10** (confirmed).  On the success path (input length = frame size,
`session.run` succeeds, an audio output tensor resolves) the posted result has
exactly `frameSize` samples, each equal to the clamp of the engine's sample at
that index (`out[i] ?? 0`, so a missing tail becomes 0), and each within
`[-1, 1]`. -/
theorem C10_result_clamped (spec : IoSpec) (onames : List String)
    (run : List (String × List Rat) → Except String (List (String × List Rat)))
    (st : Option (List Rat)) (id : Nat) (audio out : List Rat)
    (outs : List (String × List Rat))
    (hlen : audio.length = spec.frameSize)
    (hrun : run (mkFeeds spec st audio) = .ok outs)
    (hout : resolveAudioOut spec onames outs = some out) :
    (processFrame spec onames run st id audio).1
      = [.result id ((List.range spec.frameSize).map fun i => clamp1 (out.getD i 0))]
    ∧ ((List.range spec.frameSize).map fun i => clamp1 (out.getD i 0)).length
        = spec.frameSize
    ∧ ∀ v ∈ (List.range spec.frameSize).map fun i => clamp1 (out.getD i 0),
        -1 ≤ v ∧ v ≤ 1 := by
  refine ⟨?_, by simp, ?_⟩
  · simp [processFrame, hlen, hrun, hout]
  · intro v hv
    obtain ⟨i, _, rfl⟩ := List.mem_map.mp hv
    exact clamp1_bounds _

/-- Witness for C10: frame size 2, engine returns the single sample `[5]` —
the result is `[clamp1 5, clamp1 0] = [1, 0]`: truncated to frame size,
clamped, zero-filled. -/
theorem C10_result_clamped_witness :
    ((processFrame c5spec ["out"] (fun _ => .ok [("out", [5])]) none 9 [1, 1]).1
      = [.result 9 ((List.range c5spec.frameSize).map fun i =>
          clamp1 (([5] : List Rat).getD i 0))])
    ∧ ((List.range c5spec.frameSize).map fun i =>
        clamp1 (([5] : List Rat).getD i 0)).length = c5spec.frameSize
    ∧ ∀ v ∈ (List.range c5spec.frameSize).map fun i =>
        clamp1 (([5] : List Rat).getD i 0), -1 ≤ v ∧ v ≤ 1 :=
  C10_result_clamped c5spec ["out"] (fun _ => .ok [("out", [5])]) none 9 [1, 1] [5]
    [("out", [5])] (by decide) rfl (by decide)

/-! ## DenoiseEngine wiring (src/audio/denoise.ts) — claim C8

The engine owns the worklet processor and the inference worker.  For claim C8
only the enable toggling and the worker's persistent state vector matter. -/

/-- Worker-side state allocation at `init` (worker lines 156-161): a fresh
zero-filled vector when negotiation produced a state input and size, else
stateless. -/
def initWorkerState (spec : IoSpec) : Option (List Rat) :=
  match spec.stateInName, spec.stateSize with
  | some _, some ss => some (List.replicate ss 0)
  | _, _ => none

/-- The engine-managed state: the worklet processor plus the worker's
negotiated spec and persistent `state` vector. -/
structure DenoiseSystem where
  proc : Proc
  workerSpec : Option IoSpec
  workerState : Option (List Rat)

/-- `DenoiseEngine.setEnabled(enabled)` (denoise.ts lines 155-158): posts
`{ type: 'setEnabled', enabled }` to the *worklet* port only.  The worker's
`onmessage` (worker lines 234-243) handles just `init` and `process`, so
nothing reaches the worker here. -/
def DenoiseSystem.setEnabled (s : DenoiseSystem) (b : Bool) : DenoiseSystem :=
  { s with proc := s.proc.onMessage (.setEnabled b) }

/-- Delivery of a `process` message to the worker (`self.onmessage` line 240
and `processFrame`): a no-op before init (`if (!session || !ioSpec) return`),
otherwise run the frame and store the updated state vector. -/
def DenoiseSystem.processMsg (s : DenoiseSystem) (onames : List String)
    (run : List (String × List Rat) → Except String (List (String × List Rat)))
    (id : Nat) (audio : List Rat) : DenoiseSystem × List WorkerReply :=
  match s.workerSpec with
  | none => (s, [])
  | some spec =>
    let pr := processFrame spec onames run s.workerState id audio
    ({ s with workerState := pr.2 }, pr.1)

/-- **C8** (corrected).  Toggling `setEnabled` — in either direction, any
number of times — never touches the worker's ModelState vector: the message
goes only to the worklet.  The vector is reset only by re-running `init`
(which allocates `initWorkerState`). -/
theorem C8_setEnabled_preserves_state (s : DenoiseSystem) (bs : List Bool) :
    (bs.foldl DenoiseSystem.setEnabled s).workerState = s.workerState := by
  induction bs generalizing s with
  | nil => rfl
  | cons b bs ih => exact (ih _).trans rfl

/-- The spec of a minimal stateful model (frame size 1, state size 1). -/
def c8spec : IoSpec :=
  { audioInName := "in", stateInName := some "st", attenInName := none,
    audioOutName := "out", stateOutName := some "stOut", frameSize := 1,
    stateSize := some 1 }

/-- **C8 counterexample.**  A freshly initialised system starts with the
zero state `[0]`; after one processed frame whose response carries the new
state `[5]`, disabling and re-enabling denoising leaves the worker state at
`[5]` — the values from before the disable are carried over, not cleared. -/
theorem C8_counterexample :
    (DenoiseSystem.mk (Proc.init 48000 none none) (some c8spec)
        (initWorkerState c8spec)).workerState = some [0]
    ∧ ((((DenoiseSystem.mk (Proc.init 48000 none none) (some c8spec)
            (initWorkerState c8spec)).processMsg ["out"]
            (fun _ => .ok [("out", [0]), ("stOut", [5])]) 1 [0]).1.setEnabled
            false).setEnabled true).workerState = some [5]
    ∧ (some [(5 : Rat)] ≠ some [(0 : Rat)]) :=
  ⟨by decide, by decide, by decide⟩

/-! ## Stream proxy hostname / redirect sanitisation (api/stream.ts) — claim C9

JS string primitives are modelled character-wise over `String.data` so that
concrete runs evaluate in the kernel.  Hostnames are ASCII, so the ASCII
`toLowerCase` is exact. -/

/-- ASCII lowering of one character. -/
def charLower (c : Char) : Char :=
  if 'A' ≤ c ∧ c ≤ 'Z' then Char.ofNat (c.toNat + 32) else c

/-- `s.toLowerCase()` for ASCII strings. -/
def strLower (s : String) : String := ⟨s.toList.map charLower⟩

/-- `s.split(sep)` for a one-character separator (JS semantics: `''.split` is
`['']`, separators at the ends produce empty parts). -/
def jsSplitOnChar (sep : Char) : List Char → List (List Char)
  | [] => [[]]
  | c :: cs =>
    let rest := jsSplitOnChar sep cs
    if c = sep then [] :: rest
    else
      match rest with
      | [] => [[c]]
      | h :: t => (c :: h) :: t

/-- `s.endsWith(t)`. -/
def strEndsWith (s t : String) : Bool := List.isSuffixOf t.toList s.toList

/-- `s.startsWith(t)`. -/
def strStartsWith (s t : String) : Bool := List.isPrefixOf t.toList s.toList

/-- Value of a digit run. -/
def digitsToNat (l : List Char) : Nat := l.foldl (fun a c => a * 10 + (c.toNat - 48)) 0

/-- `Number.parseInt(p, 10)` for the sign-free strings hostname labels are:
the leading digit run's value, `none` for NaN (no leading digit). -/
def jsParseInt10 (s : List Char) : Option Nat :=
  let ds := s.takeWhile Char.isDigit
  if ds.isEmpty then none else some (digitsToNat ds)

/-- `isPrivateIPv4(hostname)` (stream.ts lines 36-47).  JS `p < 0` cannot
occur for the digit-run parses modelled here (`Nat`). -/
def isPrivateIPv4 (hostname : String) : Bool :=
  let parts := (jsSplitOnChar '.' hostname.toList).map jsParseInt10
  if parts.length ≠ 4 then false
  else if parts.any fun p => p.isNone || decide (255 < p.getD 0) then false
  else
    match parts with
    | some a :: some b :: _ =>
      a == 10 || a == 127 || a == 0 || (a == 169 && b == 254) ||
        (a == 172 && decide (16 ≤ b) && decide (b ≤ 31)) || (a == 192 && b == 168)
    | _ => false

/-- The test `/^\d+\.\d+\.\d+\.\d+$/.test(h)`: exactly four nonempty all-digit
dot-separated labels. -/
def ipv4Shape (h : String) : Bool :=
  let ps := jsSplitOnChar '.' h.toList
  ps.length == 4 && ps.all fun p => !p.isEmpty && p.all Char.isDigit

/-- `isBlockedHostname` (lines 49-57): empty, `.local`/`.localhost`, private
IPv4 literals, and IPv6 loopback / link-local / unique-local shapes. -/
def isBlockedHostname (hostname : String) : Bool :=
  let h := strLower hostname
  if h == "" then true
  else if h == "localhost" || strEndsWith h ".localhost" || strEndsWith h ".local" then true
  else if ipv4Shape h && isPrivateIPv4 h then true
  else if h == "::1" || h == "[::1]" then true
  else if strStartsWith h "fe80:" || strStartsWith h "fc" || strStartsWith h "fd" then true
  else false

/-- `hostMatchesPattern` (lines 74-81): `*.suffix` patterns match the suffix
itself and any subdomain; other patterns match exactly. -/
def hostMatchesPattern (hostname pattern : String) : Bool :=
  if pattern == "" then false
  else if strStartsWith pattern "*." then
    let sfx : String := ⟨pattern.toList.drop 2⟩
    hostname == sfx || strEndsWith hostname ("." ++ sfx)
  else hostname == pattern

/-- `isHostAllowedByPolicy` (lines 83-88).  The allow/block lists are read
from environment configuration at module load; they are parameters here. -/
def isHostAllowedByPolicy (allowlist blocklist : List String) (hostname : String) : Bool :=
  let h := strLower hostname
  if blocklist.any fun p => hostMatchesPattern h p then false
  else if 0 < allowlist.length then allowlist.any fun p => hostMatchesPattern h p
  else true

/-- A parsed WHATWG URL, as far as the proxy inspects it. -/
structure UrlM where
  protocol : String
  hostname : String
  username : String
  password : String
deriving Repr, DecidableEq

/-- `parseTargetUrl(raw)` (lines 181-193).  `new URL(raw)` is the external
WHATWG parser; its outcome is passed in (`none` models a parse throw), while
`rawLen` is `raw.length` for the `MAX_URL_LENGTH` check. -/
def parseTargetUrl (allowlist blocklist : List String) (rawLen : Nat)
    (parsed : Option UrlM) : Option UrlM :=
  if rawLen > 8192 then none
  else
    match parsed with
    | none => none
    | some u =>
      if u.protocol ≠ "http:" ∧ u.protocol ≠ "https:" then none
      else if u.username ≠ "" ∨ u.password ≠ "" then none
      else if isBlockedHostname u.hostname then none
      else if ¬isHostAllowedByPolicy allowlist blocklist u.hostname then none
      else some u

/-- An upstream response, as far as the redirect loop inspects it: the status,
the `location` header already resolved against the current URL (resolution is
the external URL library), and a tag identifying the body. -/
structure Resp where
  status : Nat
  location : Option UrlM
  body : Nat
deriving Repr, DecidableEq

/-- The loop of `fetchWithSafeRedirects` (lines 195-218) with the remaining
iteration count as fuel; fuel 0 is loop exit, i.e. `throw 'Too many
redirects'`. -/
def fetchGo (fetchO : UrlM → Resp) : Nat → UrlM → Except String Resp
  | 0, _ => .error "Too many redirects"
  | fuel + 1, current =>
    if (fetchO current).status < 300 ∨ 399 < (fetchO current).status then
      .ok (fetchO current)
    else
      match (fetchO current).location with
      | none => .ok (fetchO current)
      | some next =>
        if next.protocol ≠ "http:" ∧ next.protocol ≠ "https:" then
          .error "Blocked redirect protocol"
        else if isBlockedHostname next.hostname then
          .error "Blocked redirect target"
        else fetchGo fetchO fuel next

/-- `fetchWithSafeRedirects(initialUrl, init, maxRedirects)`: the
`for i = 0; i <= maxRedirects` loop performs `maxRedirects + 1` fetches. -/
def fetchWithSafeRedirects (fetchO : UrlM → Resp) (initialUrl : UrlM)
    (maxRedirects : Nat) : Except String Resp :=
  fetchGo fetchO (maxRedirects + 1) initialUrl

theorem fetchGo_ok_safety (fetchO : UrlM → Resp) :
    ∀ (fuel : Nat) (u : UrlM) (res : Resp), fetchGo fetchO fuel u = .ok res →
      ∃ v : UrlM, fetchO v = res ∧
        (v = u ∨ ((v.protocol = "http:" ∨ v.protocol = "https:")
          ∧ isBlockedHostname v.hostname = false)) := by
  intro fuel
  induction fuel with
  | zero => intro u res h; simp [fetchGo] at h
  | succ fuel ih =>
    intro u res h
    rw [fetchGo] at h
    split at h
    · exact ⟨u, (Except.ok.injEq _ _).mp h, Or.inl rfl⟩
    · split at h
      · exact ⟨u, (Except.ok.injEq _ _).mp h, Or.inl rfl⟩
      · next hst next' hloc =>
        split at h
        · exact absurd h (by simp)
        · split at h
          · exact absurd h (by simp)
          · next hproto hblocked =>
            obtain ⟨v, hv, hcase⟩ := ih next' res h
            refine ⟨v, hv, Or.inr ?_⟩
            rcases hcase with rfl | hc
            · constructor
              · by_cases hp : v.protocol = "http:"
                · exact Or.inl hp
                · refine Or.inr ?_
                  by_cases hq : v.protocol = "https:"
                  · exact hq
                  · exact absurd ⟨hp, hq⟩ hproto
              · rw [Bool.not_eq_true] at hblocked
                exact hblocked
            · exact hc

theorem fetchGo_all_redirect (fetchO : UrlM → Resp)
    (hall : ∀ v : UrlM, 300 ≤ (fetchO v).status ∧ (fetchO v).status ≤ 399
      ∧ ∃ nx : UrlM, (fetchO v).location = some nx
          ∧ (nx.protocol = "http:" ∨ nx.protocol = "https:")
          ∧ isBlockedHostname nx.hostname = false) :
    ∀ (fuel : Nat) (u : UrlM), fetchGo fetchO fuel u = .error "Too many redirects" := by
  intro fuel
  induction fuel with
  | zero => intro u; rfl
  | succ fuel ih =>
    intro u
    obtain ⟨h1, h2, nx, hloc, hproto, hblocked⟩ := hall u
    rw [fetchGo, if_neg (by omega), hloc]
    dsimp only
    rw [if_neg (by tauto)]
    rw [if_neg (by simp [hblocked])]
    exact ih nx

/-- **C9** (corrected, the part that holds).  Every response returned by the
redirect-following fetch was fetched either at the initial URL (which
`parseTargetUrl` fully vets, allow/block policy included) or at a hop target
that passed the per-hop checks — http/https scheme and the
loopback/link-local/private/`.local` hostname rejection; and with every
upstream response redirecting to an acceptable target, the loop gives up with
`Too many redirects` after `maxRedirects + 1` fetches instead of following
further.  (The allow/block-list policy itself is NOT re-applied per hop, see
the counterexample.) -/
theorem C9_redirect_safety :
    (∀ (fetchO : UrlM → Resp) (u : UrlM) (maxR : Nat) (res : Resp),
      fetchWithSafeRedirects fetchO u maxR = .ok res →
      ∃ v : UrlM, fetchO v = res ∧
        (v = u ∨ ((v.protocol = "http:" ∨ v.protocol = "https:")
          ∧ isBlockedHostname v.hostname = false)))
    ∧ (∀ (fetchO : UrlM → Resp) (u : UrlM) (maxR : Nat),
      (∀ v : UrlM, 300 ≤ (fetchO v).status ∧ (fetchO v).status ≤ 399
        ∧ ∃ nx : UrlM, (fetchO v).location = some nx
            ∧ (nx.protocol = "http:" ∨ nx.protocol = "https:")
            ∧ isBlockedHostname nx.hostname = false) →
      fetchWithSafeRedirects fetchO u maxR = .error "Too many redirects") :=
  ⟨fun fetchO u maxR res h => fetchGo_ok_safety fetchO (maxR + 1) u res h,
   fun fetchO u maxR hall => fetchGo_all_redirect fetchO hall (maxR + 1) u⟩

def goodUrl : UrlM :=
  { protocol := "https:", hostname := "good.example", username := "", password := "" }

def evilUrl : UrlM :=
  { protocol := "https:", hostname := "evil.example", username := "", password := "" }

/-- An upstream where `good.example` redirects to `evil.example`, which then
serves content (body tag 2). -/
def c9fetch : UrlM → Resp := fun v =>
  if v.hostname == "good.example" then { status := 302, location := some evilUrl, body := 1 }
  else { status := 200, location := none, body := 2 }

/-- **C9 counterexample.**  With the allow-list `["good.example"]` the initial
URL is fully vetted, and `evil.example` is NOT allowed by that policy — yet
the redirect chase fetches it and returns its response (body 2): the
allow/block-list policy is not re-applied per hop (only the scheme and the
built-in blocked-hostname checks are). -/
theorem C9_counterexample :
    parseTargetUrl ["good.example"] [] 30 (some goodUrl) = some goodUrl
    ∧ isHostAllowedByPolicy ["good.example"] [] "evil.example" = false
    ∧ fetchWithSafeRedirects c9fetch goodUrl 5
        = .ok { status := 200, location := none, body := 2 } :=
  ⟨by decide, by decide, rfl⟩

def c9okFetch : UrlM → Resp := fun _ => { status := 200, location := none, body := 3 }

def c9loopFetch : UrlM → Resp := fun _ =>
  { status := 302, location := some goodUrl, body := 4 }

/-- Witness for C9 at concrete inputs: a direct 200 response, and an upstream
that redirects forever to an acceptable target. -/
theorem C9_redirect_safety_witness :
    (∃ v : UrlM, c9okFetch v = { status := 200, location := none, body := 3 }
      ∧ (v = goodUrl ∨ ((v.protocol = "http:" ∨ v.protocol = "https:")
          ∧ isBlockedHostname v.hostname = false)))
    ∧ fetchWithSafeRedirects c9loopFetch goodUrl 5 = .error "Too many redirects" :=
  ⟨C9_redirect_safety.1 c9okFetch goodUrl 5 { status := 200, location := none, body := 3 }
      rfl,
   C9_redirect_safety.2 c9loopFetch goodUrl 5 (fun v =>
    ⟨show (300 : Nat) ≤ 302 by decide, show (302 : Nat) ≤ 399 by decide,
     goodUrl, rfl, Or.inr rfl, by decide⟩)⟩

end Poisecast
